import Mathlib

/-!
Verification of `src/app.py` (Notion 議事録 generator, Streamlit app).

The Python helper functions are shallowly embedded as executable Lean
functions.  Python strings are modelled as `List Char` (with `String` at
the interfaces); the operations `str.strip`, `str.split('\n\n')`,
`str.split('\n')` and the one `re.sub` call of the program are embedded
character by character.  Remote calls (`notion.blocks.children.list`,
`notion.pages.create`, `model.generate_content`) are passed in as oracle
arguments; a Python exception raised by such a call is an
`Except.error`.  Streamlit output (`st.warning`, `st.error`) is modelled
as lists of emitted message strings in each function's result record.

The whitespace class models the ASCII part of Python's `str.strip()` /
regex `\s` (space, tab, newline, carriage return, vertical tab, form
feed); the claims under study only involve these characters.
-/

namespace App

/-- ASCII whitespace, as stripped by Python `str.strip()` and matched by
regex `\s` (restricted to ASCII). -/
def isPyWs (c : Char) : Bool :=
  c = ' ' || c = '\t' || c = '\n' || c = '\r' ||
  c = Char.ofNat 11 || c = Char.ofNat 12

/-- Python `s.strip()`: drop leading and trailing whitespace. -/
def pyStrip (cs : List Char) : List Char :=
  (cs.dropWhile isPyWs).rdropWhile isPyWs

/-- Python `s.strip()` on `String`. -/
def pyStripStr (s : String) : String :=
  ⟨pyStrip s.data⟩

/-- Python `s.split('\n\n')`: split on every non-overlapping occurrence
of a double newline, scanning left to right; empty pieces are kept.
`acc` holds the current piece, reversed. -/
def splitTwoNl : List Char → List Char → List (List Char)
  | [], acc => [acc.reverse]
  | [c], acc => [(c :: acc).reverse]
  | c1 :: c2 :: rest, acc =>
    if c1 = '\n' ∧ c2 = '\n' then acc.reverse :: splitTwoNl rest []
    else splitTwoNl (c2 :: rest) (c1 :: acc)

/-- Python `s.split('\n')`. -/
def splitOneNl : List Char → List Char → List (List Char)
  | [], acc => [acc.reverse]
  | c :: rest, acc =>
    if c = '\n' then acc.reverse :: splitOneNl rest []
    else splitOneNl rest (c :: acc)

/-- The lines of a paragraph: `para_strip.split('\n')` (app.py line 173). -/
def pyLines (p : List Char) : List (List Char) :=
  splitOneNl p []

/-- One Notion rich-text run is modelled by its `text.content` field
(every run built by the program has `"type": "text"`). -/
abbrev Run := List Char

/-- One Notion paragraph block is modelled by its `rich_text` run list
(every block built by the program has `"object": "block"`,
`"type": "paragraph"`). -/
abbrev Block := List Run

/-- The loop of app.py lines 174-188: one text run per line, with a
single `"\n"` run between consecutive lines and none after the last. -/
def interleaveRuns : List (List Char) → Block
  | [] => []
  | [l] => [l]
  | l :: l2 :: ls => l :: ['\n'] :: interleaveRuns (l2 :: ls)

/-- The paragraph block built for one surviving (stripped, non-empty)
paragraph (app.py lines 172-196). -/
def paraBlock (p : List Char) : Block :=
  interleaveRuns (pyLines p)

/-- The paragraph loop of app.py lines 165-201: skip paragraphs that are
empty after stripping, append a paragraph block for each survivor, and
break with a warning once the batch holds 100 blocks.  Returns the batch
together with whether the truncation warning fired. -/
def blocksLoop : List (List Char) → List Block → List Block × Bool
  | [], blocks => (blocks, false)
  | para :: rest, blocks =>
    let ps := pyStrip para
    if ps = [] then blocksLoop rest blocks
    else
      let blocks' := blocks ++ [paraBlock ps]
      if 100 ≤ blocks'.length then (blocks', true)
      else blocksLoop rest blocks'

/-- The block batch of `create_notion_page_with_markdown`
(app.py lines 160-201): split the stripped markdown on `'\n\n'` and run
the paragraph loop. -/
def createBlocks (markdown : String) : List Block × Bool :=
  blocksLoop (splitTwoNl (pyStrip markdown.data) []) []

/-- The surviving paragraphs of a markdown input: split on `'\n\n'`,
strip each candidate, drop the empty ones, keep the order. -/
def survivors (markdown : String) : List (List Char) :=
  ((splitTwoNl (pyStrip markdown.data) []).map pyStrip).filter (· ≠ [])

/-- The surviving paragraphs of a candidate list. -/
def survivorsOf (paras : List (List Char)) : List (List Char) :=
  (paras.map pyStrip).filter (· ≠ [])

/-- Concatenation of a block's run contents. -/
def runsJoin (b : Block) : List Char :=
  b.flatten

/-! ### The `re.sub` call of `generate_minutes_with_gemini`

App.py line 134 runs
`re.sub(r'^```markdown\s*|\s*```$', '', response.text, flags=re.MULTILINE).strip()`.
Because of `re.MULTILINE`, `^` matches at the start of every line and
`$` before every `'\n'` (and at the end of the string), and `re.sub`
replaces every non-overlapping occurrence, scanning left to right and
preferring the first alternative.  The scan is embedded below: at each
position the matcher tries `^```markdown\s*` (only when the position is
at a line start), then `\s*```$`.  Since `\s*` is greedy and a backtick
is not whitespace, no backtracking inside `\s*` can ever succeed, so the
maximal-whitespace attempt is exact. -/

/-- The backtick character. -/
def btick : Char := Char.ofNat 96

/-- Does `pat` occur at the head of `cs`? -/
def listStartsWith : List Char → List Char → Bool
  | [], _ => true
  | _ :: _, [] => false
  | p :: ps, c :: cs => p = c && listStartsWith ps cs

/-- Length of the maximal whitespace run at the head of `cs`
(greedy `\s*`). -/
def wsCount : List Char → Nat
  | [] => 0
  | c :: rest => if isPyWs c then wsCount rest + 1 else 0

/-- Does `cs` begin with a fence marker followed by a line end
(`` ```$ `` with `re.MULTILINE`)? -/
def fenceEnd (cs : List Char) : Bool :=
  listStartsWith ("```".data) cs &&
    (decide ((cs.drop 3) = []) || decide ((cs.drop 3).head? = some '\n'))

/-- One match attempt of `^```markdown\s*|\s*```$` at the current
position; `atStart` says whether `^` matches here.  Returns the length
of the match. -/
def tryFence (cs : List Char) (atStart : Bool) : Option Nat :=
  if atStart && listStartsWith ("```markdown".data) cs then
    some (11 + wsCount (cs.drop 11))
  else
    if fenceEnd (cs.drop (wsCount cs)) then some (wsCount cs + 3) else none

/-- The `re.sub` scan with replacement by the empty string.  The fuel is
the length of the remaining text; every step consumes at least one
character, so it never runs out (the fuel-zero branch returns the
remainder unchanged, which keeps the equations total). -/
def pySubFuel : Nat → List Char → Bool → List Char
  | 0, cs, _ => cs
  | _ + 1, [], _ => []
  | fuel + 1, c :: rest, atStart =>
    match tryFence (c :: rest) atStart with
    | some n =>
      pySubFuel fuel ((c :: rest).drop n)
        (decide (((c :: rest).take n).getLast? = some '\n'))
    | none => c :: pySubFuel fuel rest (decide (c = '\n'))

/-- `re.sub(r'^```markdown\s*|\s*```$', '', cs, flags=re.MULTILINE)`. -/
def pySubMarkers (cs : List Char) : List Char :=
  pySubFuel cs.length cs true

/-- The fence-stripping step of `generate_minutes_with_gemini`
(app.py line 134): the `re.sub` above followed by `.strip()`. -/
def cleanedText (t : String) : String :=
  ⟨pyStrip (pySubMarkers t.data)⟩

/-- Does `cs` contain a triple-backtick fence marker anywhere? -/
def fenceHead (cs : List Char) : Bool :=
  match cs with
  | a :: b :: c :: _ => a = btick && b = btick && c = btick
  | _ => false

/-- `cs` contains a ``` ``` ``` fence marker somewhere. -/
def containsFence : List Char → Bool
  | [] => false
  | c :: rest => fenceHead (c :: rest) || containsFence rest

/-! ### Remote calls and error handling -/

/-- A Python exception raised by a remote call: either
`notion_client.APIResponseError` (respectively a failed Gemini call) or
any other `Exception`.  `msg` is the exception's display text. -/
inductive PyErr where
  | api (msg : String)
  | other (msg : String)
deriving DecidableEq

/-- Display text of an exception. -/
def errText : PyErr → String
  | .api m => m
  | .other m => m

/-! ### `get_transcript_pages` (app.py lines 59-80) -/

/-- A block as returned by `notion.blocks.children.list` for the parent
page, restricted to the fields the function reads: `block.get("type")`,
`block.get("id")` and `block.get("child_page", {}).get("title")`.
A missing field is `none` (`block.get` returns `None` / the default). -/
structure ChildBlock where
  type : Option String
  id : Option String
  child_page_title : Option String
deriving DecidableEq

/-- A `notion.blocks.children.list` response, restricted to
`response.get("results", [])`. -/
structure ListResp where
  results : List ChildBlock
deriving DecidableEq

/-- One entry of the returned list: the dict built on app.py
lines 67-70. -/
structure PageSummary where
  title : String
  id : Option String
deriving DecidableEq

/-- The loop of app.py lines 64-70: keep the blocks whose type is
`"child_page"`, in response order, defaulting a missing title to
`"無題"`. -/
def collectChildPages : List ChildBlock → List PageSummary
  | [] => []
  | b :: rest =>
    if b.type = some "child_page" then
      ⟨b.child_page_title.getD "無題", b.id⟩ :: collectChildPages rest
    else collectChildPages rest

/-- Result of `get_transcript_pages`: the returned list and the
`st.error` messages shown. -/
structure PagesResult where
  ret : List PageSummary
  errors : List String
deriving DecidableEq

/-- `get_transcript_pages` (app.py lines 59-80).  The single
`notion.blocks.children.list` call is passed in as its outcome.  On
success the collected child pages are reversed (newest last in the API
order becomes first) and cut to the first 5; any exception is caught,
reported and turned into the empty list. -/
def get_transcript_pages (response : Except PyErr ListResp) : PagesResult :=
  match response with
  | .ok r => ⟨((collectChildPages r.results).reverse).take 5, []⟩
  | .error (.api m) => ⟨[], ["Notion APIエラー (子ページ取得): " ++ m]⟩
  | .error (.other m) => ⟨[], ["予期せぬエラー (子ページ取得): " ++ m]⟩

/-! ### `get_page_content` (app.py lines 82-111)

As committed, app.py does not parse: line 96
(`content_key = block_type`) is indented at the same level as the `if`
of line 95 whose body it must open, while lines 98-100 are indented one
level deeper, so Python raises `IndentationError` when the module is
loaded.  The definitions below embed the evident intent — lines 96-97
belong inside the `if` of line 95, which matches the deeper indentation
of lines 98-100 and the code's own comments — so that the surrounding
specification can be checked against it. -/

/-- One rich-text run of a fetched block: `text_part.get("plain_text", "")`
reads this field, defaulting to the empty string. -/
structure TextRun where
  plain_text : Option String
deriving DecidableEq

/-- A fetched block, restricted to the fields read by the function: its
type and the `rich_text` list stored under the key equal to its type
(`content_key = block_type`). -/
structure ContentBlock where
  type : Option String
  rich_text : List TextRun
deriving DecidableEq

/-- One `notion.blocks.children.list` response for the content page:
`response.get("results", [])` and `response.get("next_cursor")`. -/
structure ChildrenResp where
  results : List ContentBlock
  next_cursor : Option String
deriving DecidableEq

/-- The supported block kinds of app.py line 95. -/
def supportedType (t : Option String) : Bool :=
  t = some "paragraph" || t = some "heading_1" || t = some "heading_2" ||
  t = some "heading_3" || t = some "bulleted_list_item" ||
  t = some "numbered_list_item" || t = some "quote" || t = some "code"

/-- Text contributed by one fetched block: for a supported block, the
concatenated `plain_text` of its runs followed by one `"\n"`; nothing
for any other block. -/
def blockText (b : ContentBlock) : List Char :=
  if supportedType b.type then
    (b.rich_text.map (fun r => (r.plain_text.getD "").data)).flatten ++ ['\n']
  else []

/-- Python truthiness of the next cursor: the `while` loop ends when
`next_cursor` is `None` or empty (`if not next_cursor: break`). -/
def cursorDone (c : Option String) : Bool :=
  match c with
  | none => true
  | some s => s = ""

/-- The `while True` pagination loop (app.py lines 87-104) over the
sequence of responses the API will give to the successive
`notion.blocks.children.list` calls; an exception raised by a call
escapes the loop.  An exhausted sequence ends the loop (only reachable
when the last consumed response still carried a cursor). -/
def contentLoop : List (Except PyErr ChildrenResp) → List Char → Except PyErr (List Char)
  | [], acc => .ok acc
  | resp :: rest, acc =>
    match resp with
    | .error e => .error e
    | .ok r =>
      let acc2 := acc ++ (r.results.map blockText).flatten
      if cursorDone r.next_cursor then .ok acc2 else contentLoop rest acc2

/-- Result of `get_page_content`: the returned string and the
`st.error` messages shown. -/
structure ContentResult where
  ret : String
  errors : List String
deriving DecidableEq

/-- `get_page_content` (app.py lines 82-111, with the indentation of
lines 96-97 corrected as described above): run the pagination loop,
strip the accumulated text; any exception is caught, reported and
turned into the empty string. -/
def get_page_content (responses : List (Except PyErr ChildrenResp)) : ContentResult :=
  match contentLoop responses [] with
  | .ok cs => ⟨⟨pyStrip cs⟩, []⟩
  | .error (.api m) => ⟨"", ["Notion APIエラー (ページ内容取得): " ++ m]⟩
  | .error (.other m) => ⟨"", ["予期せぬエラー (ページ内容取得): " ++ m]⟩

/-- The blocks actually consumed from a sequence of successful
responses: results accumulate until the first response whose cursor is
`None` or empty; later responses are never requested. -/
def consumedBlocks : List ChildrenResp → List ContentBlock
  | [] => []
  | r :: rest =>
    r.results ++ (if cursorDone r.next_cursor then [] else consumedBlocks rest)

/-! ### `generate_minutes_with_gemini` (app.py lines 113-152) -/

/-- A Gemini response, restricted to what the function reads:
`response.text` when `hasattr(response, 'text')` holds (`none` models a
response without usable text; the `prompt_feedback` diagnostics are not
modelled). -/
structure GeminiResp where
  text : Option String
deriving DecidableEq

/-- Result of `generate_minutes_with_gemini`: the returned string, the
`st.warning` and `st.error` messages shown, and how many
`model.generate_content` calls were issued. -/
structure GenResult where
  ret : String
  warnings : List String
  errors : List String
  calls : Nat
deriving DecidableEq

/-- `generate_minutes_with_gemini` (app.py lines 113-152).  The
`model.generate_content` call is passed in as an oracle; it receives
the transcript (the prompt built on line 119 wraps the transcript in
the fixed `GEMINI_PROMPT` template, which no claim depends on).  An
empty transcript short-circuits with a warning and no call; a response
carrying text is fence-stripped; any exception is caught, reported and
turned into the empty string. -/
def generate_minutes_with_gemini (generateContent : String → Except PyErr GeminiResp)
    (transcript : String) : GenResult :=
  if transcript = "" then
    ⟨"", ["文字起こしテキストが空です。"], [], 0⟩
  else
    match generateContent transcript with
    | .ok resp =>
      match resp.text with
      | some t => ⟨cleanedText t, [], [], 1⟩
      | none => ⟨"", [], ["Geminiからの応答にテキストが含まれていません。"], 1⟩
    | .error e => ⟨"", [], ["Gemini APIエラー: " ++ errText e], 1⟩

/-! ### `create_notion_page_with_markdown` (app.py lines 154-233) -/

/-- The created page as returned by `notion.pages.create`, restricted
to `new_page.get("id")`. -/
structure NewPage where
  id : Option String
deriving DecidableEq

/-- Result of `create_notion_page_with_markdown`: the returned page id
(`None` is `none`), the `st.warning` and `st.error` messages shown, and
how many `notion.pages.create` calls were issued. -/
structure CreateResult where
  ret : Option String
  warnings : List String
  errors : List String
  calls : Nat
deriving DecidableEq

/-- The truncation warning of app.py line 200. -/
def truncMsg : String := "コンテンツが長すぎるため、最初の約100段落のみ書き込みます。"

/-- `create_notion_page_with_markdown` (app.py lines 154-233).  The
`notion.pages.create` call is passed in as an oracle receiving the
parent page id, the title and the block batch.  Empty markdown
short-circuits with a warning, no call and `None`; otherwise the block
batch is built (with the truncation warning when its loop broke) and
the page is created, returning `new_page.get("id")`; any exception is
caught, reported and turned into `None`.  (The success-path
`st.success`/`st.markdown` URL output is not modelled.) -/
def create_notion_page_with_markdown
    (pagesCreate : String → String → List Block → Except PyErr NewPage)
    (parent_page_id title markdown_content : String) : CreateResult :=
  if markdown_content = "" then
    ⟨none, ["書き込む議事録コンテンツがありません。"], [], 0⟩
  else
    let blocks := (createBlocks markdown_content).1
    let warns := if (createBlocks markdown_content).2 then [truncMsg] else []
    match pagesCreate parent_page_id title blocks with
    | .ok page => ⟨page.id, warns, [], 1⟩
    | .error (.api m) => ⟨none, warns, ["Notion APIエラー (ページ作成): " ++ m], 1⟩
    | .error (.other m) => ⟨none, warns, ["予期せぬエラー (ページ作成): " ++ m], 1⟩

/-- A markdown input consisting of exactly 100 one-character
paragraphs. -/
def md100 : String := String.intercalate "\n\n" (List.replicate 100 "a")

end App

namespace App

theorem interleaveRuns_join (ls : List (List Char)) :
    runsJoin (interleaveRuns ls) = List.intercalate ['\n'] ls := by
  match ls with
  | [] => simp [interleaveRuns, runsJoin, List.intercalate]
  | [l] => simp [interleaveRuns, runsJoin, List.intercalate]
  | l :: l2 :: ls =>
    have ih := interleaveRuns_join (l2 :: ls)
    simp only [interleaveRuns, runsJoin, List.flatten] at ih ⊢
    rw [ih]
    simp [List.intercalate, List.intersperse]

theorem splitOneNl_ne_nil (cs acc : List Char) : splitOneNl cs acc ≠ [] := by
  induction cs generalizing acc with
  | nil => simp [splitOneNl]
  | cons c rest ih =>
    rw [splitOneNl]
    split
    · simp
    · exact ih _

theorem intercalate_cons_ne_nil (sep a : List Char) (l : List (List Char))
    (h : l ≠ []) :
    List.intercalate sep (a :: l) = a ++ sep ++ List.intercalate sep l := by
  cases l with
  | nil => exact absurd rfl h
  | cons b t =>
    simp [List.intercalate, List.intersperse]

/-- Joining the pieces of `s.split('\n')` with `'\n'` gives back `s`. -/
theorem intercalate_splitOneNl (cs acc : List Char) :
    List.intercalate ['\n'] (splitOneNl cs acc) = acc.reverse ++ cs := by
  induction cs generalizing acc with
  | nil => simp [splitOneNl, List.intercalate]
  | cons c rest ih =>
    rw [splitOneNl]
    split
    · rename_i hc
      rw [intercalate_cons_ne_nil _ _ _ (splitOneNl_ne_nil rest [])]
      rw [ih []]
      subst hc
      simp
    · rw [ih (c :: acc)]
      simp

/-- The runs of a paragraph block concatenate back to the paragraph. -/
theorem runsJoin_paraBlock (p : List Char) : runsJoin (paraBlock p) = p := by
  rw [paraBlock, interleaveRuns_join, pyLines, intercalate_splitOneNl]
  simp

theorem interleaveRuns_length (ls : List (List Char)) :
    (interleaveRuns ls).length = 2 * ls.length - 1 := by
  match ls with
  | [] => simp [interleaveRuns]
  | [l] => simp [interleaveRuns]
  | l :: l2 :: ls =>
    have ih := interleaveRuns_length (l2 :: ls)
    simp only [interleaveRuns, List.length_cons] at ih ⊢
    omega

/-- Run count of a paragraph block: `2 * L - 1` for `L` lines. -/
theorem paraBlock_length (p : List Char) :
    (paraBlock p).length = 2 * (pyLines p).length - 1 := by
  rw [paraBlock, interleaveRuns_length]

theorem pyLines_length_pos (p : List Char) : 0 < (pyLines p).length :=
  List.length_pos.mpr (splitOneNl_ne_nil p [])

theorem survivors_eq (markdown : String) :
    survivors markdown = survivorsOf (splitTwoNl (pyStrip markdown.data) []) :=
  rfl

/-- Closed form of the paragraph loop: starting below the 100-block cap,
it appends one block per survivor up to the cap, and the warning fires
exactly when the survivors fill the cap. -/
theorem blocksLoop_eq (paras : List (List Char)) (blocks : List Block)
    (h : blocks.length < 100) :
    blocksLoop paras blocks =
      (blocks ++ ((survivorsOf paras).map paraBlock).take (100 - blocks.length),
       decide (100 - blocks.length ≤ (survivorsOf paras).length)) := by
  induction paras generalizing blocks with
  | nil =>
    simp only [blocksLoop, survivorsOf, List.map_nil, List.filter_nil,
      List.length_nil, List.take_nil, List.append_nil, List.map_nil]
    have : ¬ (100 - blocks.length ≤ 0) := by omega
    simp [this]
  | cons para rest ih =>
    rw [blocksLoop]
    by_cases hps : pyStrip para = []
    · rw [if_pos hps]
      have hsurv : survivorsOf (para :: rest) = survivorsOf rest := by
        simp [survivorsOf, hps]
      rw [ih blocks h, hsurv]
    · rw [if_neg hps]
      have hsurv : survivorsOf (para :: rest) = pyStrip para :: survivorsOf rest := by
        simp [survivorsOf, hps]
      rw [hsurv]
      by_cases hlen : 100 ≤ (blocks ++ [paraBlock (pyStrip para)]).length
      · rw [if_pos hlen]
        simp only [List.length_append, List.length_cons, List.length_nil] at hlen
        have h99 : blocks.length = 99 := by omega
        have htake : 100 - blocks.length = 1 := by omega
        simp [htake, List.take_succ_cons, h99]
      · rw [if_neg hlen]
        simp only [List.length_append, List.length_cons, List.length_nil] at hlen
        rw [ih _ (by simp; omega)]
        have htake : 100 - blocks.length = (100 - (blocks ++ [paraBlock (pyStrip para)]).length) + 1 := by
          simp; omega
        rw [htake]
        simp only [List.map_cons, List.take_succ_cons, List.length_cons]
        rw [Prod.mk.injEq]
        constructor
        · simp
        · simp only [decide_eq_decide]
          simp only [List.length_append, List.length_cons, List.length_nil]
          omega

/-- Closed form of the whole batch construction. -/
theorem createBlocks_eq (markdown : String) :
    createBlocks markdown =
      (((survivors markdown).map paraBlock).take 100,
       decide (100 ≤ (survivors markdown).length)) := by
  rw [createBlocks, blocksLoop_eq _ _ (by simp), survivors_eq]
  simp

/-- Every block of the batch is the paragraph block of some survivor. -/
theorem mem_createBlocks (md : String) (b : Block)
    (hb : b ∈ (createBlocks md).1) :
    ∃ p, p ∈ survivors md ∧ b = paraBlock p ∧ p ≠ [] := by
  rw [createBlocks_eq] at hb
  have hb2 : b ∈ (survivors md).map paraBlock := List.take_subset _ _ hb
  obtain ⟨p, hp, hpb⟩ := List.mem_map.mp hb2
  refine ⟨p, hp, hpb.symm, ?_⟩
  have := (List.mem_filter.mp hp).2
  simpa using this

/-- C1: For every markdown input string, `create_notion_page_with_markdown`
builds its block batch by splitting the trimmed input on double-newline
boundaries, trimming each candidate paragraph and dropping empty ones;
each surviving paragraph (up to the batch cap) becomes one paragraph
block whose run list has one text run per line with a single
newline-character run between consecutive lines and none after the
last.  The input `"Line1\nLine2\n\nPara2"` yields exactly 2 paragraph
blocks, the first with 3 runs (text `"Line1"`, a newline run, text
`"Line2"`) and the second with 1 run (`"Para2"`); blank-only paragraphs
are never emitted. -/
theorem C1_block_batch_from_paragraphs :
    (∀ md : String, (createBlocks md).1 = ((survivors md).map paraBlock).take 100) ∧
    (∀ md : String, ∀ b ∈ (createBlocks md).1, runsJoin b ≠ []) ∧
    (createBlocks "Line1\nLine2\n\nPara2").1 =
      [["Line1".data, ['\n'], "Line2".data], ["Para2".data]] := by
  refine ⟨fun md => by rw [createBlocks_eq], fun md b hb => ?_, by decide⟩
  obtain ⟨p, _, hpb, hpne⟩ := mem_createBlocks md b hb
  rw [hpb, runsJoin_paraBlock]
  exact hpne

/-- C1 witness: an emitted block with non-blank text. -/
theorem C1_block_batch_from_paragraphs_witness :
    runsJoin ["A".data] ≠ [] :=
  C1_block_batch_from_paragraphs.2.1 "A" ["A".data] (by decide)

/-- C2 (amended): the batch never exceeds 100 blocks; survivors beyond
the first 100 are dropped; and the truncation warning is emitted
exactly once precisely when there are at least 100 surviving
paragraphs — including the case of exactly 100, where nothing is
actually truncated. -/
theorem C2_batch_cap_and_warning :
    ∀ (pagesCreate : String → String → List Block → Except PyErr NewPage)
      (pid title md : String),
      (createBlocks md).1.length ≤ 100 ∧
      (createBlocks md).1 = ((survivors md).map paraBlock).take 100 ∧
      ((createBlocks md).2 = true ↔ 100 ≤ (survivors md).length) ∧
      (create_notion_page_with_markdown pagesCreate pid title md).warnings.count truncMsg
        = (if 100 ≤ (survivors md).length then 1 else 0) := by
  intro pagesCreate pid title md
  refine ⟨?_, by rw [createBlocks_eq], by rw [createBlocks_eq]; simp, ?_⟩
  · rw [createBlocks_eq]
    simp
  · by_cases hmd : md = ""
    · subst hmd
      have hw : (create_notion_page_with_markdown pagesCreate pid title "").warnings
          = ["書き込む議事録コンテンツがありません。"] := rfl
      rw [hw]
      decide
    · simp only [create_notion_page_with_markdown, if_neg hmd, createBlocks_eq]
      by_cases hn : 100 ≤ (survivors md).length
      · cases hc : pagesCreate pid title (((survivors md).map paraBlock).take 100) with
        | ok page => simp [hc, hn, List.count_cons]
        | error e => cases e <;> simp [hc, hn, List.count_cons]
      · cases hc : pagesCreate pid title (((survivors md).map paraBlock).take 100) with
        | ok page => simp [hc, hn]
        | error e => cases e <;> simp [hc, hn]

set_option maxRecDepth 10000 in
/-- C2 counterexample: `md100` has exactly 100 surviving paragraphs, so
no content is dropped, yet the truncation warning is emitted — the
warning is not surfaced "only when excess paragraphs exist". -/
theorem C2_warning_without_truncation :
    (createBlocks md100).2 = true ∧
    (survivors md100).length = 100 ∧
    (createBlocks md100).1 = (survivors md100).map paraBlock ∧
    (create_notion_page_with_markdown (fun _ _ _ => .ok ⟨some "pid"⟩) "p" "t" md100).warnings
      = [truncMsg] := by
  exact ⟨by decide, by decide, by decide, by decide⟩

/-- C9: every emitted paragraph block is the run list of some surviving
paragraph: its runs concatenate back to the trimmed paragraph text, it
has exactly `2 * L - 1` runs for `L` the paragraph's line count, and it
is a non-empty, odd-length list alternating line runs with
single-newline runs. -/
theorem C9_run_list_structure :
    ∀ md : String, ∀ b ∈ (createBlocks md).1,
      ∃ p ∈ survivors md,
        b = interleaveRuns (pyLines p) ∧
        runsJoin b = p ∧
        b.length = 2 * (pyLines p).length - 1 ∧
        b ≠ [] ∧ b.length % 2 = 1 := by
  intro md b hb
  obtain ⟨p, hp, hpb, hpne⟩ := mem_createBlocks md b hb
  have hL : 0 < (pyLines p).length := pyLines_length_pos p
  have hlen : b.length = 2 * (pyLines p).length - 1 := by
    rw [hpb]; exact paraBlock_length p
  refine ⟨p, hp, hpb, by rw [hpb]; exact runsJoin_paraBlock p, hlen, ?_, by omega⟩
  have : 0 < b.length := by omega
  exact List.length_pos.mp this

/-- C9 witness: the block of the two-line paragraph `"A\nB"`. -/
theorem C9_run_list_structure_witness :
    ∃ p ∈ survivors "A\nB",
      (["A".data, ['\n'], "B".data] : Block) = interleaveRuns (pyLines p) ∧
      runsJoin ["A".data, ['\n'], "B".data] = p ∧
      (["A".data, ['\n'], "B".data] : Block).length = 2 * (pyLines p).length - 1 ∧
      (["A".data, ['\n'], "B".data] : Block) ≠ [] ∧
      (["A".data, ['\n'], "B".data] : Block).length % 2 = 1 :=
  C9_run_list_structure "A\nB" ["A".data, ['\n'], "B".data] (by decide)

/-- The collecting loop is the filter-then-map of the response blocks. -/
theorem collectChildPages_eq (l : List ChildBlock) :
    collectChildPages l =
      (l.filter (fun b => decide (b.type = some "child_page"))).map
        (fun b => ⟨b.child_page_title.getD "無題", b.id⟩) := by
  induction l with
  | nil => simp [collectChildPages]
  | cons b rest ih =>
    rw [collectChildPages]
    by_cases hb : b.type = some "child_page"
    · rw [if_pos hb]
      simp [List.filter_cons, hb, ih]
    · rw [if_neg hb]
      simp [List.filter_cons, hb, ih]

/-- C4: for every successful container listing, `get_transcript_pages`
returns the child-page entries in reverse API order (newest first when
the API lists in creation order), truncated to at most 5: its result is
the reversed filtered list cut to 5, its length is `min 5 k` for `k`
child pages — so exactly 5 when `k ≥ 5`, exactly `k` when `k < 5`, and
empty (with no error reported) when there are none. -/
theorem C4_latest_five :
    ∀ r : ListResp,
      (get_transcript_pages (.ok r)).ret =
        (((r.results.filter (fun b => decide (b.type = some "child_page"))).map
          (fun b => ⟨b.child_page_title.getD "無題", b.id⟩)).reverse).take 5 ∧
      (get_transcript_pages (.ok r)).ret.length =
        min 5 (r.results.filter (fun b => decide (b.type = some "child_page"))).length ∧
      (get_transcript_pages (.ok r)).errors = [] := by
  intro r
  refine ⟨by rw [get_transcript_pages, collectChildPages_eq], ?_, rfl⟩
  rw [get_transcript_pages, collectChildPages_eq]
  simp

/-- C10: every returned `PageSummary` originates from a `child_page`
block of the response: its id is the block's id and its title the
block's `child_page` title, defaulting to `"無題"` when absent. -/
theorem C10_entries_from_child_page_blocks :
    ∀ r : ListResp, ∀ p ∈ (get_transcript_pages (.ok r)).ret,
      ∃ b ∈ r.results, b.type = some "child_page" ∧ p.id = b.id ∧
        p.title = b.child_page_title.getD "無題" := by
  intro r p hp
  rw [get_transcript_pages] at hp
  have hp2 := List.take_subset 5 _ hp
  rw [List.mem_reverse, collectChildPages_eq, List.mem_map] at hp2
  obtain ⟨b, hb, hbp⟩ := hp2
  rw [List.mem_filter] at hb
  refine ⟨b, hb.1, by simpa using hb.2, ?_, ?_⟩
  · rw [← hbp]
  · rw [← hbp]

/-- C10 witness: the single child page of a one-block response. -/
theorem C10_entries_from_child_page_blocks_witness :
    ∃ b ∈ [(⟨some "child_page", some "i1", none⟩ : ChildBlock)],
      b.type = some "child_page" ∧
      (⟨"無題", some "i1"⟩ : PageSummary).id = b.id ∧
      (⟨"無題", some "i1"⟩ : PageSummary).title = b.child_page_title.getD "無題" :=
  C10_entries_from_child_page_blocks ⟨[⟨some "child_page", some "i1", none⟩]⟩
    ⟨"無題", some "i1"⟩ (by decide)

/-- C7: none of `get_transcript_pages`, `get_page_content` and
`create_notion_page_with_markdown` lets an exception of its remote call
escape: each reports the error and returns its benign empty result (the
empty list, the empty string, `None`). -/
theorem C7_exceptions_contained :
    (∀ e : PyErr,
      (get_transcript_pages (.error e)).ret = [] ∧
      (get_transcript_pages (.error e)).errors ≠ []) ∧
    (∀ (responses : List (Except PyErr ChildrenResp)) (e : PyErr),
      contentLoop responses [] = .error e →
      (get_page_content responses).ret = "" ∧
      (get_page_content responses).errors ≠ []) ∧
    (∀ (pagesCreate : String → String → List Block → Except PyErr NewPage)
       (pid title md : String) (e : PyErr),
      md ≠ "" →
      pagesCreate pid title (createBlocks md).1 = .error e →
      (create_notion_page_with_markdown pagesCreate pid title md).ret = none ∧
      (create_notion_page_with_markdown pagesCreate pid title md).errors ≠ []) := by
  refine ⟨fun e => ?_, fun responses e h => ?_, fun pagesCreate pid title md e hmd h => ?_⟩
  · cases e <;> simp [get_transcript_pages]
  · rw [get_page_content, h]
    cases e <;> simp
  · simp only [create_notion_page_with_markdown, if_neg hmd, h]
    cases e <;> simp

/-- C7 witness: a failing listing call, a failing pagination call and a
failing page-creation call, each yielding the benign empty result. -/
theorem C7_exceptions_contained_witness :
    ((get_transcript_pages (.error (.api "boom"))).ret = [] ∧
      (get_transcript_pages (.error (.api "boom"))).errors ≠ []) ∧
    ((get_page_content [.error (.other "boom")]).ret = "" ∧
      (get_page_content [.error (.other "boom")]).errors ≠ []) ∧
    ((create_notion_page_with_markdown (fun _ _ _ => .error (.api "down")) "p" "t" "x").ret = none ∧
      (create_notion_page_with_markdown (fun _ _ _ => .error (.api "down")) "p" "t" "x").errors ≠ []) :=
  ⟨C7_exceptions_contained.1 (.api "boom"),
   C7_exceptions_contained.2.1 [.error (.other "boom")] (.other "boom") rfl,
   C7_exceptions_contained.2.2 (fun _ _ _ => .error (.api "down")) "p" "t" "x" (.api "down")
     (by decide) rfl⟩

/-- C8: empty input short-circuits without any remote call: the Gemini
helper on the empty transcript issues no `generate_content` call and
returns the empty string, and the page writer on empty markdown issues
no `pages.create` call and returns `None`; both surface a warning. -/
theorem C8_empty_input_short_circuit :
    (∀ generateContent : String → Except PyErr GeminiResp,
      generate_minutes_with_gemini generateContent "" =
        ⟨"", ["文字起こしテキストが空です。"], [], 0⟩) ∧
    (∀ (pagesCreate : String → String → List Block → Except PyErr NewPage)
       (pid title : String),
      create_notion_page_with_markdown pagesCreate pid title "" =
        ⟨none, ["書き込む議事録コンテンツがありません。"], [], 0⟩) :=
  ⟨fun _ => rfl, fun _ _ _ => rfl⟩

/-- A run of successful responses accumulates exactly the text of the
consumed blocks. -/
theorem contentLoop_ok (rs : List ChildrenResp) (acc : List Char) :
    contentLoop (rs.map Except.ok) acc =
      .ok (acc ++ ((consumedBlocks rs).map blockText).flatten) := by
  induction rs generalizing acc with
  | nil => simp [contentLoop, consumedBlocks]
  | cons r rest ih =>
    rw [List.map_cons, contentLoop]
    by_cases hc : cursorDone r.next_cursor
    · simp [hc, consumedBlocks]
    · simp only [hc, if_neg, Bool.not_eq_true, ih, consumedBlocks, if_false]
      simp [hc]

/-- Dropping unsupported blocks first does not change the accumulated
text: an unsupported block contributes neither text nor newline. -/
theorem blockText_filter (l : List ContentBlock) :
    (l.map blockText).flatten =
      ((l.filter (fun b => supportedType b.type)).map
        (fun b => (b.rich_text.map (fun r => (r.plain_text.getD "").data)).flatten ++ ['\n'])).flatten := by
  induction l with
  | nil => simp
  | cons b rest ih =>
    rw [List.map_cons, List.flatten_cons, List.filter_cons]
    by_cases hb : supportedType b.type
    · simp only [hb, if_pos, blockText, List.map_cons, List.flatten_cons, ih]
    · simp only [hb, if_neg, blockText, if_false]
      simp [ih]

/-- C3 (on the dedent-corrected model of `get_page_content`; as
committed the function's body is an `IndentationError`, see the C3
commentary above its definition): for every finite response sequence,
the function returns the concatenation over exactly the supported-kind
consumed blocks of their runs' plain text followed by one newline,
unsupported blocks contributing nothing, the whole stripped of
surrounding whitespace; blocks `[paragraph "Hello", code "x=1", image]`
give `"Hello\nx=1"`. -/
theorem C3_page_text_extraction :
    (∀ rs : List ChildrenResp,
      get_page_content (rs.map Except.ok) =
        ⟨⟨pyStrip (((consumedBlocks rs).filter (fun b => supportedType b.type)).map
            (fun b => (b.rich_text.map (fun r => (r.plain_text.getD "").data)).flatten ++ ['\n'])).flatten⟩,
         []⟩) ∧
    get_page_content
      [.ok ⟨[⟨some "paragraph", [⟨some "Hello"⟩]⟩, ⟨some "code", [⟨some "x=1"⟩]⟩,
             ⟨some "image", []⟩], none⟩] = ⟨"Hello\nx=1", []⟩ := by
  refine ⟨fun rs => ?_, by decide⟩
  rw [get_page_content, contentLoop_ok, List.nil_append, blockText_filter]

theorem listStartsWith_ex (p cs : List Char) (h : listStartsWith p cs = true) :
    ∃ r, cs = p ++ r := by
  induction p generalizing cs with
  | nil => exact ⟨cs, rfl⟩
  | cons a ps ih =>
    cases cs with
    | nil => simp [listStartsWith] at h
    | cons c rest =>
      rw [listStartsWith, Bool.and_eq_true] at h
      obtain ⟨r, hr⟩ := ih rest h.2
      have hac : a = c := by simpa using h.1
      subst hac
      rw [hr]
      exact ⟨r, rfl⟩

theorem containsFence_at (l r : List Char) :
    containsFence (l ++ btick :: btick :: btick :: r) = true := by
  induction l with
  | nil =>
    rw [List.nil_append, containsFence]
    have hf : fenceHead (btick :: btick :: btick :: r) = true := by
      simp [fenceHead]
    rw [hf, Bool.true_or]
  | cons c l ih =>
    rw [List.cons_append, containsFence, ih, Bool.or_true]

theorem fenceHead_ex (cs : List Char) (h : fenceHead cs = true) :
    ∃ r, cs = btick :: btick :: btick :: r := by
  match cs with
  | [] => simp [fenceHead] at h
  | [a] => simp [fenceHead] at h
  | [a, b] => simp [fenceHead] at h
  | a :: b :: c :: rest =>
    have ha : a = btick ∧ b = btick ∧ c = btick := by
      simpa [fenceHead, Bool.and_eq_true, and_assoc] using h
    exact ⟨rest, by rw [ha.1, ha.2.1, ha.2.2]⟩

theorem containsFence_ex (cs : List Char) (h : containsFence cs = true) :
    ∃ l r, cs = l ++ btick :: btick :: btick :: r := by
  induction cs with
  | nil => simp [containsFence] at h
  | cons c rest ih =>
    rw [containsFence, Bool.or_eq_true] at h
    cases h with
    | inl h =>
      obtain ⟨r, hr⟩ := fenceHead_ex _ h
      exact ⟨[], r, hr⟩
    | inr h =>
      obtain ⟨l, r, hr⟩ := ih h
      exact ⟨c :: l, r, by rw [hr]; rfl⟩

/-- A fence-free text has fence-free pieces. -/
theorem containsFence_false_of_between (pre mid post : List Char)
    (h : containsFence (pre ++ mid ++ post) = false) : containsFence mid = false := by
  by_contra hmid
  rw [Bool.not_eq_false] at hmid
  obtain ⟨l, r, hr⟩ := containsFence_ex mid hmid
  rw [hr, show pre ++ (l ++ btick :: btick :: btick :: r) ++ post
      = (pre ++ l) ++ btick :: btick :: btick :: (r ++ post) from by simp] at h
  rw [containsFence_at] at h
  exact Bool.noConfusion h

/-- The stripped text sits inside the original text. -/
theorem pyStrip_decomp (cs : List Char) :
    ∃ pre post, cs = pre ++ pyStrip cs ++ post := by
  have hpre : pyStrip cs <+: cs.dropWhile isPyWs := List.rdropWhile_prefix _ _
  obtain ⟨post, hpost⟩ := hpre
  obtain ⟨pre, hpre2⟩ := List.dropWhile_suffix (l := cs) isPyWs
  refine ⟨pre, post, ?_⟩
  conv_lhs => rw [← hpre2, ← hpost]
  simp

theorem containsFence_pyStrip (cs : List Char) (h : containsFence cs = false) :
    containsFence (pyStrip cs) = false := by
  obtain ⟨pre, post, hd⟩ := pyStrip_decomp cs
  rw [hd] at h
  exact containsFence_false_of_between pre _ post h

theorem dropWhile_head_false (p : Char → Bool) (l : List Char) (x : Char) (t : List Char)
    (h : l.dropWhile p = x :: t) : p x = false := by
  induction l with
  | nil => simp [List.dropWhile] at h
  | cons a l ih =>
    rw [List.dropWhile_cons] at h
    split at h
    · exact ih h
    · rename_i ha
      injection h with h1 _
      subst h1
      rwa [Bool.not_eq_true] at ha

/-- The stripped text has no leading whitespace left. -/
theorem pyStrip_dropWhile (cs : List Char) :
    (pyStrip cs).dropWhile isPyWs = pyStrip cs := by
  rcases hX : pyStrip cs with _ | ⟨x, xs⟩
  · rfl
  · rw [List.dropWhile_cons]
    have hpre : pyStrip cs <+: cs.dropWhile isPyWs := List.rdropWhile_prefix _ _
    obtain ⟨post, hpost⟩ := hpre
    have hd : cs.dropWhile isPyWs = x :: (xs ++ post) := by
      rw [← hpost, hX]
      rfl
    have hx : isPyWs x = false := dropWhile_head_false isPyWs cs x (xs ++ post) hd
    rw [hx]
    simp

/-- Python `strip` is idempotent. -/
theorem pyStrip_idem (cs : List Char) : pyStrip (pyStrip cs) = pyStrip cs := by
  show ((pyStrip cs).dropWhile isPyWs).rdropWhile isPyWs = pyStrip cs
  rw [pyStrip_dropWhile]
  exact List.rdropWhile_idempotent isPyWs (cs.dropWhile isPyWs)

/-- On fence-free text neither alternative of the pattern can match. -/
theorem tryFence_none (cs : List Char) (atStart : Bool)
    (h : containsFence cs = false) : tryFence cs atStart = none := by
  rw [tryFence]
  have h1 : (atStart && listStartsWith ("```markdown".data) cs) = false := by
    by_contra hb
    rw [Bool.not_eq_false, Bool.and_eq_true] at hb
    obtain ⟨r, hr⟩ := listStartsWith_ex _ _ hb.2
    have hm : ("```markdown".data : List Char) = btick :: btick :: btick :: "markdown".data := by
      decide
    rw [hr, hm, show (btick :: btick :: btick :: "markdown".data) ++ r
        = [] ++ btick :: btick :: btick :: ("markdown".data ++ r) from by simp] at h
    rw [containsFence_at] at h
    exact Bool.noConfusion h
  have h2 : fenceEnd (cs.drop (wsCount cs)) = false := by
    by_contra hb
    rw [Bool.not_eq_false, fenceEnd, Bool.and_eq_true] at hb
    obtain ⟨r, hr⟩ := listStartsWith_ex _ _ hb.1
    have hcs : cs = cs.take (wsCount cs) ++ cs.drop (wsCount cs) :=
      (List.take_append_drop _ _).symm
    have ht : ("```".data : List Char) = btick :: btick :: btick :: [] := by decide
    rw [hcs, hr, ht, show cs.take (wsCount cs) ++ ((btick :: btick :: btick :: []) ++ r)
        = cs.take (wsCount cs) ++ btick :: btick :: btick :: r from by simp] at h
    rw [containsFence_at] at h
    exact Bool.noConfusion h
  rw [h1, h2]
  simp

/-- The `re.sub` scan leaves fence-free text unchanged. -/
theorem pySubFuel_id (fuel : Nat) (cs : List Char) (atStart : Bool)
    (h : containsFence cs = false) : pySubFuel fuel cs atStart = cs := by
  induction fuel generalizing cs atStart with
  | zero => rfl
  | succ fuel ih =>
    cases cs with
    | nil => rfl
    | cons c rest =>
      have hrest : containsFence rest = false := by
        rw [containsFence, Bool.or_eq_false_iff] at h
        exact h.2
      simp only [pySubFuel, tryFence_none _ _ h]
      rw [ih rest _ hrest]

theorem pySubMarkers_id (cs : List Char) (h : containsFence cs = false) :
    pySubMarkers cs = cs := by
  rw [pySubMarkers, pySubFuel_id _ _ _ h]

/-- C5 counterexample: a fence marker in the interior of the reply is
also removed (the regex is multiline), contradicting "fence markers
elsewhere inside the text are left intact". -/
theorem C5_interior_marker_removed :
    (generate_minutes_with_gemini (fun _ => .ok ⟨some "a\n```\nb"⟩) "t").ret = "a\nb" ∧
    (generate_minutes_with_gemini (fun _ => .ok ⟨some "a\n```\nb"⟩) "t").ret ≠ "a\n```\nb" :=
  ⟨by decide, by decide⟩

/-- C5 (amended): when the model reply carries text, the function
returns the reply with every line-initial ```` ```markdown ```` marker
(and its trailing whitespace) and every line-final ```` ``` ```` marker
(and its preceding whitespace) removed — anywhere in the text, interior
and repeated markers included, because the pattern is compiled with
`re.MULTILINE` — and surrounding whitespace trimmed; a reply containing
no fence marker at all is only trimmed. -/
theorem C5_fence_stripping_multiline :
    (∀ (generateContent : String → Except PyErr GeminiResp) (t reply : String),
      t ≠ "" → generateContent t = .ok ⟨some reply⟩ →
      (generate_minutes_with_gemini generateContent t).ret = cleanedText reply) ∧
    (∀ s : String, containsFence s.data = false → cleanedText s = pyStripStr s) ∧
    cleanedText "```markdown\nHello\n```" = "Hello" ∧
    cleanedText "```markdown\n```markdown\nhi" = "hi" ∧
    cleanedText "x\n```\ny\n```\nz" = "x\ny\nz" := by
  refine ⟨fun g t reply ht hg => ?_, fun s h => ?_, by decide, by decide, by decide⟩
  · simp only [generate_minutes_with_gemini, if_neg ht, hg]
  · rw [cleanedText, pySubMarkers_id _ h, pyStripStr]

/-- C5 witness: a clean reply passes through up to trimming. -/
theorem C5_fence_stripping_multiline_witness :
    (generate_minutes_with_gemini (fun _ => .ok ⟨some "ok"⟩) "t").ret = cleanedText "ok" ∧
    cleanedText "clean" = pyStripStr "clean" :=
  ⟨C5_fence_stripping_multiline.1 (fun _ => .ok ⟨some "ok"⟩) "t" "ok" (by decide) rfl,
   C5_fence_stripping_multiline.2.1 "clean" (by decide)⟩

/-- C6: fence-stripping is idempotent on already-clean input: a string
with no fence marker is returned unchanged up to trimming, and applying
the step twice is the same as applying it once. -/
theorem C6_fence_stripping_idempotent :
    ∀ s : String, containsFence s.data = false →
      cleanedText s = pyStripStr s ∧
      cleanedText (cleanedText s) = cleanedText s := by
  intro s h
  have h1 : cleanedText s = pyStripStr s := by
    rw [cleanedText, pySubMarkers_id _ h, pyStripStr]
  have h2 : containsFence (pyStripStr s).data = false := containsFence_pyStrip _ h
  have h4 : cleanedText (pyStripStr s) = pyStripStr s := by
    rw [cleanedText, pySubMarkers_id _ h2]
    show (⟨pyStrip (pyStrip s.data)⟩ : String) = pyStripStr s
    rw [pyStrip_idem]
    rfl
  exact ⟨h1, by rw [h1, h4]⟩

/-- C6 witness: a whitespace-padded clean string. -/
theorem C6_fence_stripping_idempotent_witness :
    containsFence ("  plain  ").data = false ∧
    cleanedText "  plain  " = pyStripStr "  plain  " ∧
    cleanedText (cleanedText "  plain  ") = cleanedText "  plain  " :=
  ⟨by decide, (C6_fence_stripping_idempotent "  plain  " (by decide)).1,
   (C6_fence_stripping_idempotent "  plain  " (by decide)).2⟩

end App
